import Mathlib

/-!
Verification development for the AI-Podcast-with-Animated-Highlight frontend.

The definitions below are a shallow embedding of the TypeScript sources:
  frontend/src/types/index.ts            (data model)
  frontend/src/lib/api.ts                (API base URL, trigger/status calls)
  frontend/src/components/ProcessingStatus.tsx  (polling client)
  frontend/src/components/HighlightPreview.tsx  (result view)
  frontend/src/app/page.tsx + AudioUploader     (upload component)

JavaScript conventions modelled explicitly:
  - a possibly-absent value is `Option`;
  - the expression `x || d` on a string-or-undefined value falls back to
    `d` when `x` is undefined or the empty string (JS falsiness);
  - `setInterval` handlers fire only while the interval has not been
    cleared; `clearInterval` is permanent.  Ticks are modelled as a list of
    events processed sequentially (each handler completes before the next
    tick fires).
-/

/-- JS `x || d` for a string-or-undefined value: `undefined` and `""` are
falsy and select the default. -/
def jsOrElse (x : Option String) (d : String) : String :=
  match x with
  | some s => if s = "" then d else s
  | none => d

/-- JS truthiness of a string-or-null value: truthy iff present and non-empty. -/
def jsTruthyStr : Option String → Bool
  | some s => s ≠ ""
  | none => false

/-- JS `String.prototype.toLowerCase`, modelled per character on the
underlying character list (the file extensions compared against are
ASCII). -/
def jsToLowerCase (s : String) : String :=
  String.mk (s.data.map Char.toLower)

/-- JS `String.prototype.endsWith`: suffix test on the character lists. -/
def jsEndsWith (s suffix : String) : Bool :=
  suffix.data.isSuffixOf s.data

/-! ## Data model (frontend/src/types/index.ts) -/

/-- `enum ProcessingStatus` from types/index.ts. -/
inductive ProcessingStatus where
  | pending
  | uploading
  | transcribing
  | analyzing
  | generating
  | completed
  | failed
deriving DecidableEq, Repr

/-- The wire string value of each `ProcessingStatus` enum member. -/
def statusString : ProcessingStatus → String
  | ProcessingStatus.pending => "pending"
  | ProcessingStatus.uploading => "uploading"
  | ProcessingStatus.transcribing => "transcribing"
  | ProcessingStatus.analyzing => "analyzing"
  | ProcessingStatus.generating => "generating"
  | ProcessingStatus.completed => "completed"
  | ProcessingStatus.failed => "failed"

/-- `interface Highlight` from types/index.ts.  Numeric fields are modelled
as rationals.  `confidence` and `reason` are typed as required in the TS
interface, but the rendering code guards them (`confidence || 0`,
`reason && ...`), so the runtime payload may omit them; they are therefore
modelled as options. -/
structure Highlight where
  start_time : Rat
  end_time : Rat
  text : String
  confidence : Option Rat := none
  reason : Option String := none
  ai_hook : Option String := none
deriving DecidableEq, Repr

/-- `interface ProcessingStatusResponse` from types/index.ts. -/
structure ProcessingStatusResponse where
  job_id : String
  status : ProcessingStatus
  progress : Int
  message : String
  highlights : Option (List Highlight) := none
  video_url : Option String := none
  video_urls : Option (List String) := none
  error : Option String := none
  transcript : Option String := none
deriving DecidableEq, Repr

/-! ## API configuration (frontend/src/lib/api.ts and HighlightPreview.tsx)

`const API_URL = process.env.NEXT_PUBLIC_API_URL || 'http://localhost:8000'`
-/

/-- The resolved API base URL given the optional environment variable. -/
def apiUrl (env : Option String) : String :=
  jsOrElse env "http://localhost:8000"

/-! ## Upload component (AudioUploader in frontend/src/app/page.tsx part)

The component keeps `selectedFile` state; `handleDrop` filters through
`isAudioFile`, while `handleFileSelect` does not. Files are modelled by
their names. -/

/-- `const audioExtensions = ['.mp3', '.wav', '.m4a', '.ogg', '.flac']`. -/
def audioExtensions : List String :=
  [".mp3", ".wav", ".m4a", ".ogg", ".flac"]

/-- `isAudioFile`: the lower-cased file name ends with one of the audio
extensions (`file.name.toLowerCase().endsWith(ext)`). -/
def isAudioFile (name : String) : Bool :=
  audioExtensions.any fun ext => jsEndsWith (jsToLowerCase name) ext

/-- `handleDrop`: takes the first dropped file (if any) and selects it only
when `isAudioFile` holds; otherwise the previous selection is kept. -/
def handleDrop (prev : Option String) (dropped : Option String) : Option String :=
  match dropped with
  | some f => if isAudioFile f then some f else prev
  | none => prev

/-- `handleFileSelect`: the change handler of the hidden file input selects
any chosen file with no extension check. -/
def handleFileSelect (prev : Option String) (chosen : Option String) : Option String :=
  match chosen with
  | some f => some f
  | none => prev

/-! ## Polling client (frontend/src/components/ProcessingStatus.tsx)

The `useEffect` body fires `triggerProcessing(jobId).catch(console.error)`
once and installs `setInterval(handler, 2000)`; the cleanup returned by the
effect is `() => clearInterval(interval)`.  Each tick either yields a
status response (`ok`) or throws (`err`). -/

/-- Outcome of one `getJobStatus` call inside the interval handler. -/
inductive TickResult where
  | ok (r : ProcessingStatusResponse)
  | err
deriving DecidableEq, Repr

/-- An event seen by the polling client: an interval tick, or the effect
cleanup (component teardown) running `clearInterval`. -/
inductive ProcEvent where
  | tick (t : TickResult)
  | teardown
deriving DecidableEq, Repr

/-- Client-side observable state of `ProcessingStatusComponent`:
`status` and `error` are the two `useState` cells, `active` records whether
the interval is still installed, `completions` the list of payloads passed
to `onComplete`, and `errorLogs` the number of `console.error` calls made
by the catch branch. -/
structure ClientState where
  status : Option ProcessingStatusResponse
  error : Option String
  active : Bool
  completions : List ProcessingStatusResponse
  errorLogs : Nat
deriving DecidableEq, Repr

/-- State when the component mounts. -/
def initState : ClientState :=
  { status := none, error := none, active := true, completions := [], errorLogs := 0 }

/-- One interval tick.  A cleared interval fires no handler.  Otherwise the
handler stores the response, and on COMPLETED clears the interval and calls
`onComplete`; on FAILED clears the interval and sets the error state to
`response.error || 'Processing failed'`; on a thrown query error it logs
and sets the error state to `'Failed to check status'`. -/
def tickStep (s : ClientState) (t : TickResult) : ClientState :=
  if s.active then
    match t with
    | TickResult.ok r =>
      let s1 := { s with status := some r }
      if r.status = ProcessingStatus.completed then
        { s1 with active := false, completions := s1.completions ++ [r] }
      else if r.status = ProcessingStatus.failed then
        { s1 with active := false, error := some (jsOrElse r.error "Processing failed") }
      else s1
    | TickResult.err =>
      { s with error := some "Failed to check status", errorLogs := s.errorLogs + 1 }
  else s

/-- Process one event: a tick runs the handler; teardown runs the effect
cleanup `clearInterval(interval)` unconditionally. -/
def procEvent (s : ClientState) (e : ProcEvent) : ClientState :=
  match e with
  | ProcEvent.tick t => tickStep s t
  | ProcEvent.teardown => { s with active := false }

/-- The client state after a sequence of events from mount. -/
def procEvents (events : List ProcEvent) : ClientState :=
  events.foldl procEvent initState

/-- The client state after a sequence of interval ticks (no teardown). -/
def pollTrace (ticks : List TickResult) : ClientState :=
  procEvents (ticks.map ProcEvent.tick)

/-- A tick is terminal when it delivered a COMPLETED or FAILED status;
query errors are not terminal. -/
def isTerminalTick : TickResult → Bool
  | TickResult.ok r =>
      decide (r.status = ProcessingStatus.completed) ||
      decide (r.status = ProcessingStatus.failed)
  | TickResult.err => false

/-- An event stops the polling loop when it is a terminal tick or teardown. -/
def stopsPolling : ProcEvent → Bool
  | ProcEvent.tick t => isTerminalTick t
  | ProcEvent.teardown => true

/-! Effect setup actions of the `useEffect` body, in order:
one `triggerProcessing(jobId)` call, then `setInterval(..., 2000)`. -/

/-- An action performed synchronously by the effect body on mount. -/
inductive EffectAction where
  | callTrigger (jobId : String)
  | startPoll (intervalMs : Nat)
deriving DecidableEq, Repr

/-- The actions the effect body performs when entering PROCESSING. -/
def effectSetup (jobId : String) : List EffectAction :=
  [EffectAction.callTrigger jobId, EffectAction.startPoll 2000]

/-- Recognizes a `triggerProcessing` call action. -/
def isTriggerCall : EffectAction → Bool
  | EffectAction.callTrigger _ => true
  | EffectAction.startPoll _ => false

/-- The polling intervals installed by a list of effect actions. -/
def pollIntervals (l : List EffectAction) : List Nat :=
  l.filterMap fun a =>
    match a with
    | EffectAction.startPoll ms => some ms
    | EffectAction.callTrigger _ => none

/-- Result of a whole mounted run: the client state from the events, plus
whether the trigger failure was logged (`.catch(console.error)`). -/
structure MountResult where
  client : ClientState
  triggerErrorLogged : Bool
deriving DecidableEq, Repr

/-- A mounted run: `triggerOk` tells whether `triggerProcessing` succeeded;
its failure is only logged and the event processing is unaffected. -/
def mountRun (triggerOk : Bool) (events : List ProcEvent) : MountResult :=
  { client := procEvents events, triggerErrorLogged := !triggerOk }

/-! Rendering of ProcessingStatusComponent. -/

/-- The four status-step labels (lines 104-117): each is highlighted by a
progress threshold — Transcribing at 25, Analyzing at 50, Generating at 75,
Complete exactly at 100. -/
structure StageStepsView where
  transcribing : Bool
  analyzing : Bool
  generating : Bool
  complete : Bool
deriving DecidableEq, Repr

/-- `className` conditions of the four step spans, from the progress value. -/
def stageStepsView (progress : Int) : StageStepsView :=
  { transcribing := decide (progress ≥ 25)
    analyzing := decide (progress ≥ 50)
    generating := decide (progress ≥ 75)
    complete := decide (progress = 100) }

/-- What ProcessingStatusComponent renders: the failure card when `error`
is truthy, the loading spinner when no status yet, otherwise the status
card with message, status text, progress and the step row. -/
inductive ProcessingView where
  | errorView (msg : String)
  | loading
  | statusCard (message : String) (statusText : String) (progress : Int)
      (steps : StageStepsView)
deriving DecidableEq, Repr

/-- The component's render function on its observable state. -/
def renderProcessing (s : ClientState) : ProcessingView :=
  if jsTruthyStr s.error then
    ProcessingView.errorView (s.error.getD "")
  else
    match s.status with
    | none => ProcessingView.loading
    | some r =>
        ProcessingView.statusCard r.message (statusString r.status) r.progress
          (stageStepsView r.progress)

/-! ## Result view (frontend/src/components/HighlightPreview.tsx) -/

/-- `hasVideos = status.video_urls && status.video_urls.length > 0`. -/
def hasVideos (st : ProcessingStatusResponse) : Bool :=
  match st.video_urls with
  | some us => decide (us.length > 0)
  | none => false

/-- `hasHighlights = status.highlights && status.highlights.length > 0`. -/
def hasHighlights (st : ProcessingStatusResponse) : Bool :=
  match st.highlights with
  | some hs => decide (hs.length > 0)
  | none => false

/-- `handleDownload(videoUrl, index)` builds an anchor with
`href = API_URL + videoUrl` and `download = highlight_{index+1}.mp4`;
returned here as the (href, download-name) pair. -/
def handleDownload (env : Option String) (videoUrl : String) (index : Nat) :
    String × String :=
  (apiUrl env ++ videoUrl, "highlight_" ++ toString (index + 1) ++ ".mp4")

/-- One card of the video grid: the `video` element source, the download
button's link data, and the guarded per-video highlight excerpt
(`status.highlights && status.highlights[index]` then `.text`). -/
structure VideoCard where
  src : String
  downloadHref : String
  downloadName : String
  info : Option String
deriving DecidableEq, Repr

/-- The card built for `video_urls[index]`. -/
def mkVideoCard (env : Option String) (st : ProcessingStatusResponse)
    (index : Nat) (videoUrl : String) : VideoCard :=
  { src := apiUrl env ++ videoUrl
    downloadHref := (handleDownload env videoUrl index).1
    downloadName := (handleDownload env videoUrl index).2
    info :=
      match st.highlights with
      | some hs => (hs[index]?).map fun h => h.text
      | none => none }

/-- `status.video_urls.map((videoUrl, index) => ...)`: the rendered grid. -/
def videoGrid (env : Option String) (st : ProcessingStatusResponse) :
    List VideoCard :=
  (st.video_urls.getD []).enum.map fun p => mkVideoCard env st p.1 p.2

/-- JS `Math.round` on a rational. -/
def jsRound (q : Rat) : Int :=
  ⌊q + 1 / 2⌋

/-- The confidence badge percentage:
`Math.round((highlight.confidence || 0) * 100)`. -/
def confidencePct (h : Highlight) : Int :=
  jsRound ((h.confidence.getD 0) * 100)

/-- Left-pads the decimal representation of a nonnegative count to two
digits, as `String.padStart(2, '0')` does for the seconds field. -/
def pad2 (n : Int) : String :=
  let s := toString n
  if s.length < 2 then "0" ++ s else s

/-- `formatTime(seconds)`: `Math.floor(seconds / 60)` minutes and
`Math.floor(seconds % 60)` seconds (nonnegative inputs, where JS `%` agrees
with the floor-based remainder). -/
def formatTime (seconds : Rat) : String :=
  let mins : Int := ⌊seconds / 60⌋
  let secs : Int := ⌊seconds - 60 * (⌊seconds / 60⌋ : Rat)⌋
  toString mins ++ ":" ++ pad2 secs

/-- One entry of the Highlight Details list: the time range label, the
confidence badge, the excerpt, and the guarded reason line
(`highlight.reason && ...`). -/
structure HighlightCard where
  timeLabel : String
  confidenceBadge : Int
  text : String
  reasonLine : Option String
deriving DecidableEq, Repr

/-- The rendered Highlight Details list (`status.highlights!.map(...)`). -/
def highlightCards (st : ProcessingStatusResponse) : List HighlightCard :=
  (st.highlights.getD []).map fun h =>
    { timeLabel := formatTime h.start_time ++ " - " ++ formatTime h.end_time
      confidenceBadge := confidencePct h
      text := h.text
      reasonLine :=
        match h.reason with
        | some rs => if rs = "" then none else some rs
        | none => none }

/-- Everything data-dependent that HighlightPreview renders: the
informational empty-state box, the optional video grid, the optional
details list, the optional transcript section, and the optional
Download All button (shown with the video count when more than one). -/
structure PreviewView where
  emptyState : Bool
  grid : Option (List VideoCard)
  details : Option (List HighlightCard)
  transcriptText : Option String
  downloadAllCount : Option Nat
deriving DecidableEq, Repr

/-- The render function of HighlightPreview on a status payload. -/
def previewView (env : Option String) (st : ProcessingStatusResponse) :
    PreviewView :=
  { emptyState := !hasVideos st && !hasHighlights st
    grid := if hasVideos st then some (videoGrid env st) else none
    details := if hasHighlights st then some (highlightCards st) else none
    transcriptText :=
      match st.transcript with
      | some t => if t = "" then none else some t
      | none => none
    downloadAllCount :=
      if hasVideos st && decide ((st.video_urls.getD []).length > 1) then
        some (st.video_urls.getD []).length
      else none }

/-! ## Helper lemmas about the polling machine -/

theorem tickStep_inactive (s : ClientState) (t : TickResult)
    (h : s.active = false) : tickStep s t = s := by
  simp [tickStep, h]

theorem procEvent_inactive (s : ClientState) (e : ProcEvent)
    (h : s.active = false) : procEvent s e = s := by
  cases e with
  | tick t => simpa [procEvent] using tickStep_inactive s t h
  | teardown =>
      cases s with
      | mk st er ac co lg =>
          simp only [procEvent]
          simp_all

theorem foldl_inactive (l : List ProcEvent) (s : ClientState)
    (h : s.active = false) : l.foldl procEvent s = s := by
  induction l generalizing s with
  | nil => rfl
  | cons e es ih =>
      rw [List.foldl_cons, procEvent_inactive s e h]
      exact ih s h

theorem tickStep_nonterm (s : ClientState) (t : TickResult)
    (hs : s.active = true) (ht : isTerminalTick t = false) :
    (tickStep s t).active = true ∧ (tickStep s t).completions = s.completions := by
  cases t with
  | ok r =>
      simp only [isTerminalTick, Bool.or_eq_false_iff, decide_eq_false_iff_not] at ht
      simp [tickStep, hs, ht.1, ht.2]
  | err => simp [tickStep, hs]

theorem foldl_nonterm (l : List TickResult) (s : ClientState)
    (hs : s.active = true) (hl : ∀ t ∈ l, isTerminalTick t = false) :
    ((l.map ProcEvent.tick).foldl procEvent s).active = true ∧
    ((l.map ProcEvent.tick).foldl procEvent s).completions = s.completions := by
  induction l generalizing s with
  | nil => exact ⟨hs, rfl⟩
  | cons t ts ih =>
      have ht := hl t (List.mem_cons_self t ts)
      have hstep := tickStep_nonterm s t hs ht
      simp only [List.map_cons, List.foldl_cons]
      have harr : procEvent s (ProcEvent.tick t) = tickStep s t := rfl
      rw [harr]
      have h2 := ih (tickStep s t) hstep.1 fun x hx => hl x (List.mem_cons_of_mem t hx)
      exact ⟨h2.1, h2.2.trans hstep.2⟩

theorem tickStep_completed (s : ClientState) (r : ProcessingStatusResponse)
    (hs : s.active = true) (hr : r.status = ProcessingStatus.completed) :
    tickStep s (TickResult.ok r) =
      { s with status := some r, active := false,
               completions := s.completions ++ [r] } := by
  simp [tickStep, hs, hr]

theorem tickStep_failed (s : ClientState) (r : ProcessingStatusResponse)
    (hs : s.active = true) (hr : r.status = ProcessingStatus.failed) :
    tickStep s (TickResult.ok r) =
      { s with status := some r, active := false,
               error := some (jsOrElse r.error "Processing failed") } := by
  simp [tickStep, hs, hr]

theorem pollTrace_completed_run (pre rest : List TickResult)
    (r : ProcessingStatusResponse)
    (hpre : ∀ t ∈ pre, isTerminalTick t = false)
    (hr : r.status = ProcessingStatus.completed) :
    (pollTrace (pre ++ TickResult.ok r :: rest)).completions = [r] ∧
    (pollTrace (pre ++ TickResult.ok r :: rest)).active = false := by
  have hfold := foldl_nonterm pre initState rfl hpre
  unfold pollTrace procEvents
  rw [List.map_append, List.map_cons, List.foldl_append, List.foldl_cons]
  set s := (List.map ProcEvent.tick pre).foldl procEvent initState with hsdef
  have harr : procEvent s (ProcEvent.tick (TickResult.ok r)) =
      tickStep s (TickResult.ok r) := rfl
  rw [harr, tickStep_completed s r hfold.1 hr, foldl_inactive _ _ rfl]
  refine ⟨?_, rfl⟩
  have hc : s.completions = [] := hfold.2
  simp [hc]

theorem pollTrace_failed_run (pre rest : List TickResult)
    (r : ProcessingStatusResponse)
    (hpre : ∀ t ∈ pre, isTerminalTick t = false)
    (hr : r.status = ProcessingStatus.failed) :
    (pollTrace (pre ++ TickResult.ok r :: rest)).active = false ∧
    (pollTrace (pre ++ TickResult.ok r :: rest)).error =
      some (jsOrElse r.error "Processing failed") ∧
    (pollTrace (pre ++ TickResult.ok r :: rest)).completions = [] := by
  have hfold := foldl_nonterm pre initState rfl hpre
  unfold pollTrace procEvents
  rw [List.map_append, List.map_cons, List.foldl_append, List.foldl_cons]
  set s := (List.map ProcEvent.tick pre).foldl procEvent initState with hsdef
  have harr : procEvent s (ProcEvent.tick (TickResult.ok r)) =
      tickStep s (TickResult.ok r) := rfl
  rw [harr, tickStep_failed s r hfold.1 hr, foldl_inactive _ _ rfl]
  have hc : s.completions = [] := hfold.2
  exact ⟨rfl, rfl, hc⟩

theorem jsOrElse_ne_empty (x : Option String) :
    jsOrElse x "Processing failed" ≠ "" := by
  cases x with
  | none => simp [jsOrElse]
  | some e =>
      by_cases he : e = "" <;> simp [jsOrElse, he]

theorem foldl_no_stop (l : List ProcEvent) (s : ClientState)
    (hs : s.active = true) (hl : ∀ e ∈ l, stopsPolling e = false) :
    (l.foldl procEvent s).active = true := by
  induction l generalizing s with
  | nil => exact hs
  | cons e es ih =>
      cases e with
      | tick t =>
          have ht : isTerminalTick t = false :=
            hl (ProcEvent.tick t) (List.mem_cons_self _ _)
          have hstep := tickStep_nonterm s t hs ht
          rw [List.foldl_cons]
          exact ih (tickStep s t) hstep.1 fun x hx => hl x (List.mem_cons_of_mem _ hx)
      | teardown =>
          have := hl ProcEvent.teardown (List.mem_cons_self _ _)
          simp [stopsPolling] at this

/-! ## Concrete fixtures used by witnesses and counterexamples -/

/-- A sample highlight with all optional fields present. -/
def hl1 : Highlight :=
  { start_time := 5, end_time := 20, text := "key moment",
    confidence := some (9 / 10), reason := some "engaging segment" }

/-- A sample highlight whose optional fields are absent at runtime. -/
def hlNoConf : Highlight :=
  { start_time := 0, end_time := 3, text := "intro" }

/-- A COMPLETED status payload carrying the aggregated result. -/
def rCompleted : ProcessingStatusResponse :=
  { job_id := "job-1", status := ProcessingStatus.completed, progress := 100,
    message := "Processing complete",
    highlights := some [hl1],
    video_urls := some ["/download/highlight_1.mp4"],
    transcript := some "full transcript" }

/-- A FAILED status payload whose `error` field is the empty string. -/
def rFailedEmptyErr : ProcessingStatusResponse :=
  { job_id := "job-1", status := ProcessingStatus.failed, progress := 40,
    message := "Processing failed", error := some "" }

/-- A FAILED status payload with a populated `error` field. -/
def rFailedMsg : ProcessingStatusResponse :=
  { job_id := "job-1", status := ProcessingStatus.failed, progress := 40,
    message := "Processing failed", error := some "Analysis failed" }

/-- A mid-pipeline status payload (non-terminal). -/
def rTranscribing : ProcessingStatusResponse :=
  { job_id := "job-1", status := ProcessingStatus.transcribing, progress := 10,
    message := "Transcribing audio..." }

/-! ## Claim theorems -/

/-- C1: on a polling run where the ticks before the first terminal response
are non-terminal (transient query failures included), receiving a getStatus
response with status COMPLETED cancels the interval poll and delivers that
payload to `onComplete` exactly once, whatever ticks would follow. -/
theorem completed_delivered_once (pre rest : List TickResult)
    (r : ProcessingStatusResponse)
    (hpre : ∀ t ∈ pre, isTerminalTick t = false)
    (hr : r.status = ProcessingStatus.completed) :
    (pollTrace (pre ++ TickResult.ok r :: rest)).completions = [r] ∧
    (pollTrace (pre ++ TickResult.ok r :: rest)).active = false :=
  pollTrace_completed_run pre rest r hpre hr

/-- C1 witness: two transient failures, then COMPLETED — `onComplete`
receives exactly the COMPLETED payload, once, and the poll is cancelled. -/
theorem completed_delivered_once_witness :
    (∀ t ∈ [TickResult.err, TickResult.err], isTerminalTick t = false) ∧
    rCompleted.status = ProcessingStatus.completed ∧
    (pollTrace ([TickResult.err, TickResult.err] ++
        TickResult.ok rCompleted :: [])).completions = [rCompleted] ∧
    (pollTrace ([TickResult.err, TickResult.err] ++
        TickResult.ok rCompleted :: [])).active = false := by
  refine ⟨by decide, rfl, ?_, ?_⟩
  · exact (completed_delivered_once [TickResult.err, TickResult.err] []
      rCompleted (by decide) rfl).1
  · exact (completed_delivered_once [TickResult.err, TickResult.err] []
      rCompleted (by decide) rfl).2

/-- C2 counterexample: after a single transient query failure the poll is
still active, but the failure IS surfaced to the observer — the client sets
its error state to "Failed to check status" and renders the failure card —
contradicting the claim that a transient failure is only logged and never
surfaced. -/
theorem transient_error_surfaced_cex :
    (pollTrace [TickResult.err]).active = true ∧
    (pollTrace [TickResult.err]).error = some "Failed to check status" ∧
    renderProcessing (pollTrace [TickResult.err]) =
      ProcessingView.errorView "Failed to check status" :=
  ⟨rfl, rfl, rfl⟩

/-- C2 amended: a transient getStatus failure does not cancel the interval
poll and the client retries on later ticks until a terminal status, and the
failure is logged; however it is also surfaced locally: the error state is
set to "Failed to check status".  A later COMPLETED response is still
delivered upstream. -/
theorem transient_error_keeps_polling (pre rest : List TickResult)
    (r : ProcessingStatusResponse)
    (hpre : ∀ t ∈ pre, isTerminalTick t = false)
    (hrest : ∀ t ∈ rest, isTerminalTick t = false)
    (hr : r.status = ProcessingStatus.completed) :
    (pollTrace (pre ++ [TickResult.err])).active = true ∧
    (pollTrace (pre ++ [TickResult.err])).error =
      some "Failed to check status" ∧
    (pollTrace (pre ++ [TickResult.err])).errorLogs =
      (pollTrace pre).errorLogs + 1 ∧
    (pollTrace (pre ++ TickResult.err :: rest ++ [TickResult.ok r])).completions
      = [r] := by
  have hfold := foldl_nonterm pre initState rfl hpre
  have hq : pre ++ TickResult.err :: rest ++ [TickResult.ok r] =
      (pre ++ TickResult.err :: rest) ++ TickResult.ok r :: [] := by simp
  refine ⟨?_, ?_, ?_, ?_⟩
  · unfold pollTrace procEvents
    rw [List.map_append, List.foldl_append]
    set s := (List.map ProcEvent.tick pre).foldl procEvent initState
    show (tickStep s TickResult.err).active = true
    simp [tickStep, hfold.1]
  · unfold pollTrace procEvents
    rw [List.map_append, List.foldl_append]
    set s := (List.map ProcEvent.tick pre).foldl procEvent initState
    show (tickStep s TickResult.err).error = some "Failed to check status"
    simp [tickStep, hfold.1]
  · unfold pollTrace procEvents
    rw [List.map_append, List.foldl_append]
    set s := (List.map ProcEvent.tick pre).foldl procEvent initState
    show (tickStep s TickResult.err).errorLogs = s.errorLogs + 1
    simp [tickStep, hfold.1]
  · rw [hq]
    refine (pollTrace_completed_run (pre ++ TickResult.err :: rest) [] r ?_ hr).1
    intro t ht
    rcases List.mem_append.mp ht with h1 | h2
    · exact hpre t h1
    · rcases List.mem_cons.mp h2 with h3 | h4
      · rw [h3]; rfl
      · exact hrest t h4

/-- C2 amended witness: one transient failure, then COMPLETED — the poll
stays active after the failure, the error message is set and logged, and
the COMPLETED payload is still delivered. -/
theorem transient_error_keeps_polling_witness :
    (pollTrace [TickResult.err]).active = true ∧
    (pollTrace [TickResult.err]).error = some "Failed to check status" ∧
    (pollTrace [TickResult.err]).errorLogs = (pollTrace []).errorLogs + 1 ∧
    (pollTrace [TickResult.err, TickResult.ok rCompleted]).completions
      = [rCompleted] := by
  have h := transient_error_keeps_polling [] [] rCompleted
    (by decide) (by decide) rfl
  exact h

/-- C3 counterexample: at the fixed-contract stage boundaries 10
(TRANSCRIBING), 40 (ANALYZING) and 70 (GENERATING) the step display does
NOT mark the corresponding stage — its thresholds are 25, 50 and 75.  Only
the COMPLETED boundary 100 marks its step. -/
theorem stage_steps_boundary_cex :
    (stageStepsView 10).transcribing = false ∧
    (stageStepsView 40).analyzing = false ∧
    (stageStepsView 70).generating = false ∧
    (stageStepsView 100).complete = true := by
  decide

/-- C3 amended: the step display of a status payload marks Transcribing iff
progress is at least 25, Analyzing iff at least 50, Generating iff at least
75, and Complete iff progress is exactly 100 — so of the fixed-contract
boundary values only COMPLETED at 100 is marked at its boundary; the other
stages are marked later within their stage, not at entry values 10/40/70. -/
theorem stage_steps_thresholds (r : ProcessingStatusResponse) :
    renderProcessing { initState with status := some r } =
      ProcessingView.statusCard r.message (statusString r.status) r.progress
        (stageStepsView r.progress) ∧
    ((stageStepsView r.progress).transcribing = true ↔ 25 ≤ r.progress) ∧
    ((stageStepsView r.progress).analyzing = true ↔ 50 ≤ r.progress) ∧
    ((stageStepsView r.progress).generating = true ↔ 75 ≤ r.progress) ∧
    ((stageStepsView r.progress).complete = true ↔ r.progress = 100) := by
  refine ⟨rfl, ?_, ?_, ?_, ?_⟩ <;> simp [stageStepsView, ge_iff_le]

/-- C3 amended witness: at progress 25 the Transcribing step is marked. -/
theorem stage_steps_thresholds_witness :
    (stageStepsView 25).transcribing = true ∧
    (stageStepsView 25).complete = false := by
  have h := stage_steps_thresholds
    { job_id := "job-1", status := ProcessingStatus.transcribing,
      progress := 25, message := "Transcribing audio..." }
  exact ⟨h.2.1.mpr (by decide), by decide⟩

/-- C4 counterexample: a FAILED response whose `error` field is present but
empty is NOT surfaced as that field — the client substitutes the default
"Processing failed", because the fallback `response.error || default` also
fires on the empty string, not only on an absent field. -/
theorem failed_empty_error_cex :
    rFailedEmptyErr.error = some "" ∧
    (pollTrace [TickResult.ok rFailedEmptyErr]).error =
      some "Processing failed" ∧
    (pollTrace [TickResult.ok rFailedEmptyErr]).error ≠ rFailedEmptyErr.error := by
  refine ⟨rfl, rfl, by decide⟩

/-- C4 amended: on receiving a FAILED response the client cancels the poll
and surfaces, exactly once and permanently, the response's `error` field
when it is present and non-empty, and otherwise the non-empty default
"Processing failed"; the surfaced message is rendered as the failure card
and `onComplete` is never called. -/
theorem failed_surfaces_error (pre rest : List TickResult)
    (r : ProcessingStatusResponse)
    (hpre : ∀ t ∈ pre, isTerminalTick t = false)
    (hr : r.status = ProcessingStatus.failed) :
    (pollTrace (pre ++ TickResult.ok r :: rest)).active = false ∧
    (pollTrace (pre ++ TickResult.ok r :: rest)).error =
      some (jsOrElse r.error "Processing failed") ∧
    jsOrElse r.error "Processing failed" ≠ "" ∧
    renderProcessing (pollTrace (pre ++ TickResult.ok r :: rest)) =
      ProcessingView.errorView (jsOrElse r.error "Processing failed") ∧
    (pollTrace (pre ++ TickResult.ok r :: rest)).completions = [] := by
  have h := pollTrace_failed_run pre rest r hpre hr
  have hne := jsOrElse_ne_empty r.error
  refine ⟨h.1, h.2.1, hne, ?_, h.2.2⟩
  rw [renderProcessing, h.2.1]
  simp [jsTruthyStr, hne]

/-- C4 amended witness: a FAILED response with error "Analysis failed" —
the poll is cancelled and exactly that message is surfaced and rendered. -/
theorem failed_surfaces_error_witness :
    (pollTrace [TickResult.ok rFailedMsg]).active = false ∧
    (pollTrace [TickResult.ok rFailedMsg]).error =
      some (jsOrElse rFailedMsg.error "Processing failed") ∧
    jsOrElse rFailedMsg.error "Processing failed" ≠ "" ∧
    renderProcessing (pollTrace [TickResult.ok rFailedMsg]) =
      ProcessingView.errorView (jsOrElse rFailedMsg.error "Processing failed") ∧
    (pollTrace [TickResult.ok rFailedMsg]).completions = [] := by
  exact failed_surfaces_error [] [] rFailedMsg (by decide) rfl

/-- C5: on entering PROCESSING the effect body issues exactly one
`triggerProcessing(jobId)` call and installs exactly one poll at a fixed
2000 ms interval; a trigger failure is logged and does not change the
client run at all; and the poll keeps running until a terminal status tick
or teardown. -/
theorem effect_setup_trigger_and_poll (jobId : String) :
    (effectSetup jobId).filter isTriggerCall = [EffectAction.callTrigger jobId] ∧
    pollIntervals (effectSetup jobId) = [2000] ∧
    (∀ triggerOk : Bool, ∀ events : List ProcEvent,
        (mountRun triggerOk events).client = (mountRun true events).client) ∧
    (∀ events : List ProcEvent,
        (mountRun false events).triggerErrorLogged = true) ∧
    (∀ events : List ProcEvent,
        (∀ e ∈ events, stopsPolling e = false) →
        (procEvents events).active = true) := by
  refine ⟨rfl, rfl, fun triggerOk events => rfl, fun events => rfl, ?_⟩
  intro events hev
  exact foldl_no_stop events initState rfl hev

/-- C5 witness: a run observing one transient failure and one mid-pipeline
status has no stopping event, and its poll is still active. -/
theorem effect_setup_trigger_and_poll_witness :
    (∀ e ∈ [ProcEvent.tick TickResult.err,
            ProcEvent.tick (TickResult.ok rTranscribing)],
        stopsPolling e = false) ∧
    (procEvents [ProcEvent.tick TickResult.err,
                 ProcEvent.tick (TickResult.ok rTranscribing)]).active = true := by
  refine ⟨by decide, ?_⟩
  exact (effect_setup_trigger_and_poll "job-1").2.2.2.2
    [ProcEvent.tick TickResult.err, ProcEvent.tick (TickResult.ok rTranscribing)]
    (by decide)

/-- C6: teardown cancels the poll unconditionally, in every client state:
after the cleanup event no later tick changes the client state, and the
interval is cleared. -/
theorem teardown_stops_polling (pre post : List ProcEvent) :
    procEvents (pre ++ ProcEvent.teardown :: post) =
      procEvents (pre ++ [ProcEvent.teardown]) ∧
    (procEvents (pre ++ [ProcEvent.teardown])).active = false := by
  have h2 : (procEvents (pre ++ [ProcEvent.teardown])).active = false := by
    unfold procEvents
    rw [List.foldl_append]
    rfl
  refine ⟨?_, h2⟩
  unfold procEvents
  rw [List.foldl_append, List.foldl_append, List.foldl_cons, List.foldl_cons,
    List.foldl_nil]
  exact foldl_inactive post _ rfl

/-- C6 witness: tearing down mid-pipeline and then receiving a would-be
COMPLETED tick delivers nothing — no tick fires after teardown. -/
theorem teardown_stops_polling_witness :
    procEvents [ProcEvent.tick (TickResult.ok rTranscribing),
        ProcEvent.teardown, ProcEvent.tick (TickResult.ok rCompleted)] =
      procEvents [ProcEvent.tick (TickResult.ok rTranscribing),
        ProcEvent.teardown] ∧
    (procEvents [ProcEvent.tick (TickResult.ok rTranscribing),
        ProcEvent.teardown]).completions = [] := by
  have h := teardown_stops_polling
    [ProcEvent.tick (TickResult.ok rTranscribing)]
    [ProcEvent.tick (TickResult.ok rCompleted)]
  exact ⟨h.1, rfl⟩

/-! Index lemma for the video grid. -/

theorem videoGrid_elem (env : Option String) (st : ProcessingStatusResponse)
    (i : Nat) :
    (videoGrid env st)[i]? =
      ((st.video_urls.getD [])[i]?).map fun u => mkVideoCard env st i u := by
  unfold videoGrid
  rw [List.getElem?_map, List.getElem?_enum]
  cases (st.video_urls.getD [])[i]? with
  | none => rfl
  | some u => rfl

/-- C7: every entry of `video_urls` is rendered with both the `video`
source and the download link equal to the relative path prefixed by the
resolved API base address, at every index. -/
theorem artifact_links_resolved (env : Option String)
    (st : ProcessingStatusResponse) (i : Nat) (u : String)
    (h : (st.video_urls.getD [])[i]? = some u) :
    ∃ card : VideoCard, (videoGrid env st)[i]? = some card ∧
      card.src = apiUrl env ++ u ∧
      card.downloadHref = apiUrl env ++ u ∧
      card.downloadName = "highlight_" ++ toString (i + 1) ++ ".mp4" := by
  refine ⟨mkVideoCard env st i u, ?_, rfl, rfl, rfl⟩
  rw [videoGrid_elem, h, Option.map_some']

/-- C7 witness: with the default base URL, the entry of `video_urls` at
index 0 resolves both links against the base address. -/
theorem artifact_links_resolved_witness :
    ((rCompleted.video_urls.getD [])[0]? = some "/download/highlight_1.mp4") ∧
    ∃ card : VideoCard, (videoGrid none rCompleted)[0]? = some card ∧
      card.src = apiUrl none ++ "/download/highlight_1.mp4" ∧
      card.downloadHref = apiUrl none ++ "/download/highlight_1.mp4" ∧
      card.downloadName = "highlight_" ++ toString (0 + 1) ++ ".mp4" :=
  ⟨rfl, artifact_links_resolved none rCompleted 0 "/download/highlight_1.mp4" rfl⟩

/-- C8: the result view treats absent optional fields as "not yet
available": when `video_urls` and `highlights` are absent it renders the
informational empty-state box and no grid or details section, and an
absent `transcript` just omits the transcript section — there is no error
path for absence. -/
theorem absent_fields_empty_state (env : Option String)
    (st : ProcessingStatusResponse) :
    (st.video_urls = none → st.highlights = none →
      (previewView env st).emptyState = true ∧
      (previewView env st).grid = none ∧
      (previewView env st).details = none) ∧
    (st.transcript = none → (previewView env st).transcriptText = none) := by
  constructor
  · intro hv hh
    refine ⟨?_, ?_, ?_⟩ <;> simp [previewView, hasVideos, hasHighlights, hv, hh]
  · intro ht
    simp [previewView, ht]

/-- C8 witness: a payload with every optional field absent renders exactly
the informational empty state. -/
theorem absent_fields_empty_state_witness :
    (previewView none
      { job_id := "job-2", status := ProcessingStatus.completed,
        progress := 100, message := "Processing complete" }).emptyState = true ∧
    (previewView none
      { job_id := "job-2", status := ProcessingStatus.completed,
        progress := 100, message := "Processing complete" }).grid = none ∧
    (previewView none
      { job_id := "job-2", status := ProcessingStatus.completed,
        progress := 100, message := "Processing complete" }).transcriptText = none := by
  have h := absent_fields_empty_state none
    { job_id := "job-2", status := ProcessingStatus.completed,
      progress := 100, message := "Processing complete" }
  exact ⟨(h.1 rfl rfl).1, (h.1 rfl rfl).2.1, h.2 rfl⟩

/-- C9: the two input paths validate asymmetrically — the file-picker
change handler selects any file with no extension check, while drag-and-drop
selects a file iff its lower-cased name ends with one of .mp3, .wav, .m4a,
.ogg, .flac; a .txt file is rejected by drop but accepted by the picker. -/
theorem upload_validation_asymmetry (name : String) :
    (∀ prev : Option String, handleFileSelect prev (some name) = some name) ∧
    (handleDrop none (some name) = some name ↔
      (jsEndsWith (jsToLowerCase name) ".mp3" = true ∨
       jsEndsWith (jsToLowerCase name) ".wav" = true ∨
       jsEndsWith (jsToLowerCase name) ".m4a" = true ∨
       jsEndsWith (jsToLowerCase name) ".ogg" = true ∨
       jsEndsWith (jsToLowerCase name) ".flac" = true)) ∧
    handleDrop none (some "notes.txt") = none ∧
    handleFileSelect none (some "notes.txt") = some "notes.txt" := by
  have hiff : isAudioFile name = true ↔
      (jsEndsWith (jsToLowerCase name) ".mp3" = true ∨
       jsEndsWith (jsToLowerCase name) ".wav" = true ∨
       jsEndsWith (jsToLowerCase name) ".m4a" = true ∨
       jsEndsWith (jsToLowerCase name) ".ogg" = true ∨
       jsEndsWith (jsToLowerCase name) ".flac" = true) := by
    simp [isAudioFile, audioExtensions]
  refine ⟨fun prev => rfl, ?_, by decide, rfl⟩
  rw [handleDrop]
  by_cases hA : isAudioFile name = true
  · rw [if_pos hA]
    exact iff_of_true rfl (hiff.mp hA)
  · rw [if_neg hA]
    exact iff_of_false (fun h => Option.noConfusion h) fun hd => hA (hiff.mpr hd)

/-- C10: the video-grid rendering is total on mismatched array lengths —
the grid has one card per `video_urls` entry, a card whose index is beyond
the `highlights` array carries no excerpt (the guarded read yields nothing
instead of an out-of-bounds access), and a highlight with no confidence
value renders a 0% badge. -/
theorem render_total_on_mismatch (env : Option String)
    (st : ProcessingStatusResponse) :
    (videoGrid env st).length = (st.video_urls.getD []).length ∧
    (∀ i : Nat, (st.highlights.getD []).length ≤ i →
      ∀ card : VideoCard, (videoGrid env st)[i]? = some card →
        card.info = none) ∧
    (∀ h : Highlight, h.confidence = none → confidencePct h = 0) := by
  refine ⟨by simp [videoGrid], ?_, ?_⟩
  · intro i hi card hcard
    rw [videoGrid_elem] at hcard
    cases hu : (st.video_urls.getD [])[i]? with
    | none => rw [hu] at hcard; exact absurd hcard (by simp)
    | some u =>
        rw [hu, Option.map_some'] at hcard
        cases hcard
        cases hh : st.highlights with
        | none => simp [mkVideoCard, hh]
        | some hs =>
            have hlen : hs.length ≤ i := by
              rw [hh] at hi
              simpa using hi
            have hnone : hs[i]? = none := List.getElem?_eq_none hlen
            simp [mkVideoCard, hh, hnone]
  · intro h hc
    rw [confidencePct, hc]
    norm_num [jsRound]

/-- C10 witness: two videos but a single highlight — the second card has no
excerpt — and a highlight without a confidence value renders 0%. -/
theorem render_total_on_mismatch_witness :
    ((({ job_id := "job-3", status := ProcessingStatus.completed,
         progress := 100, message := "Processing complete",
         highlights := some [hl1],
         video_urls := some ["/download/a.mp4", "/download/b.mp4"] } :
        ProcessingStatusResponse).highlights.getD []).length ≤ 1) ∧
    (∀ card : VideoCard,
      (videoGrid none
        { job_id := "job-3", status := ProcessingStatus.completed,
          progress := 100, message := "Processing complete",
          highlights := some [hl1],
          video_urls := some ["/download/a.mp4", "/download/b.mp4"] })[1]? =
        some card → card.info = none) ∧
    hlNoConf.confidence = none ∧ confidencePct hlNoConf = 0 := by
  refine ⟨by decide, ?_, rfl, ?_⟩
  · exact (render_total_on_mismatch none
      { job_id := "job-3", status := ProcessingStatus.completed,
        progress := 100, message := "Processing complete",
        highlights := some [hl1],
        video_urls := some ["/download/a.mp4", "/download/b.mp4"] }).2.1 1
      (by decide)
  · exact (render_total_on_mismatch none
      { job_id := "job-3", status := ProcessingStatus.completed,
        progress := 100, message := "Processing complete" }).2.2 hlNoConf rfl
